import Mathlib

/-!
Verification of the Global-Spotify-Hits analysis repository.

The repository consists of a pandas-based analysis module
(`src/analysis/spotify_analysis.py`) and a Django import command
(`src/webapp/charts/management/commands/load_charts.py`).  This file gives a
shallow embedding of the data model and of the operations those modules
perform, and proves the testable properties stated about them.

Modelling conventions:
* a data frame whose canonical columns are present is a `List Row`;
* the column-name level of the code (rename maps, `_ensure_columns`) is
  modelled on `List String` column lists;
* `pandas.DataFrame.drop_duplicates` (keep="first") and `Series.nunique`
  are modelled with `distinctsFirst`;
* `groupby(keys)` with the default `sort=True` is modelled by collecting the
  distinct keys in order of first appearance and sorting them ascending;
* `sort_values(col, ascending=False)` is modelled with `List.insertionSort`
  on the descending relation (the order among ties is unspecified in the
  source, so any comparison sort is a faithful model);
* `DataFrame.head(n)` is modelled by `dfHead`, including pandas' negative-`n`
  slice semantics;
* dates are modelled as `Option Nat`: `none` is the null marker (`NaT`)
  produced by `pd.to_datetime(..., errors="coerce")` for unparsable input;
* machine integers (stream counts) are modelled as `Int` (Python ints are
  unbounded, so no modular reduction is needed).
-/

namespace Spotify

/-- Model of `drop_duplicates` and of the distinct values of a column, keeping the first
occurrence of each value (pandas' `keep="first"` default). -/
def distinctsFirst {α : Type} [DecidableEq α] : List α → List α
  | [] => []
  | x :: xs => x :: (distinctsFirst xs).filter (fun y => y ≠ x)

/-- One canonical chart record as `load_spotify_charts` returns it: columns
`track_name`, `artist`, `country`, `date` (already coerced, `none` = `NaT`)
and `streams`. -/
structure Row where
  track_name : String
  artist : String
  country : String
  date : Option Nat
  streams : Int
deriving DecidableEq, Repr

/-- Output row of `compute_country_song_counts`. -/
structure CountryCountRow where
  track_name : String
  artist : String
  country_count : Nat
deriving DecidableEq, Repr

/-- Output row of `compute_chart_diversity_by_country`. -/
structure DiversityRow where
  country : String
  unique_tracks : Nat
deriving DecidableEq, Repr

/-- Output row of `compute_average_days_on_chart`. -/
structure DaysRow where
  track_name : String
  artist : String
  days_on_chart : Nat
deriving DecidableEq, Repr

/-- Output row of `compute_top_songs_by_streams`. -/
structure StreamsRow where
  track_name : String
  artist : String
  total_streams : Int
deriving DecidableEq, Repr

/-- Lexicographic (code-point) non-strict order on character lists: the
order Python uses to compare strings. -/
def charListLe : List Char → List Char → Bool
  | [], _ => true
  | _ :: _, [] => false
  | a :: as, b :: bs =>
    if a.toNat < b.toNat then true
    else if b.toNat < a.toNat then false
    else charListLe as bs

/-- Lexicographic (code-point) strict order on character lists. -/
def charListLt : List Char → List Char → Bool
  | [], [] => false
  | [], _ :: _ => true
  | _ :: _, [] => false
  | a :: as, b :: bs =>
    if a.toNat < b.toNat then true
    else if b.toNat < a.toNat then false
    else charListLt as bs

/-- Python's string `≤`, on the underlying character lists. -/
def strLe (a b : String) : Prop := charListLe a.data b.data = true

instance : DecidableRel strLe := fun a b => by
  unfold strLe; infer_instance

/-- Ascending order on `(track_name, artist)` group keys, as pandas sorts
group keys lexicographically. -/
def songKeyLe (a b : String × String) : Prop :=
  charListLt a.1.data b.1.data = true ∨ (a.1 = b.1 ∧ strLe a.2 b.2)

instance : DecidableRel songKeyLe := fun a b => by
  unfold songKeyLe; infer_instance

/-- Model of `df.groupby(key)[col].agg(...)` with pandas' default `sort=True`:
the distinct keys of `l`, sorted ascending, each paired with the reduction
of the rows carrying that key. -/
def groupbyAgg {α κ β : Type} [DecidableEq κ] (keyLe : κ → κ → Prop)
    [DecidableRel keyLe] (key : α → κ) (agg : List α → β) (l : List α) :
    List (κ × β) :=
  (List.insertionSort keyLe (distinctsFirst (l.map key))).map
    (fun k => (k, agg (l.filter (fun r => key r = k))))

/-- Model of `DataFrame.head(n)`: for `n ≥ 0` the first `n` rows, for `n < 0` all rows
but the last `|n|` (pandas' negative-slice semantics). -/
def dfHead {α : Type} (l : List α) (n : Int) : List α :=
  if 0 ≤ n then l.take n.toNat else l.take (l.length - (-n).toNat)

/-- Embedding of `compute_country_song_counts`: project to
`[track_name, artist, country]`, drop duplicate rows, group by
`(track_name, artist)`, count distinct countries, sort descending by
`country_count`. -/
def compute_country_song_counts (df : List Row) : List CountryCountRow :=
  let subset := distinctsFirst
    (df.map (fun r => (r.track_name, r.artist, r.country)))
  let grouped := groupbyAgg songKeyLe (fun t => (t.1, t.2.1))
    (fun g => (distinctsFirst (g.map (fun t => t.2.2))).length) subset
  List.insertionSort (fun a b => b.country_count ≤ a.country_count)
    (grouped.map (fun kv => ⟨kv.1.1, kv.1.2, kv.2⟩))

/-- Embedding of `compute_chart_diversity_by_country`: project to
`[track_name, country]`, drop duplicate pairs, group by `country`, count
distinct track names, sort descending by `unique_tracks`. -/
def compute_chart_diversity_by_country (df : List Row) : List DiversityRow :=
  let subset := distinctsFirst (df.map (fun r => (r.track_name, r.country)))
  let grouped := groupbyAgg strLe (fun t => t.2)
    (fun g => (distinctsFirst (g.map (fun t => t.1))).length) subset
  List.insertionSort (fun a b => b.unique_tracks ≤ a.unique_tracks)
    (grouped.map (fun kv => ⟨kv.1, kv.2⟩))

/-- Embedding of `compute_average_days_on_chart`: drop rows with a null date, group by
`(track_name, artist)`, count distinct dates, sort descending by
`days_on_chart`. -/
def compute_average_days_on_chart (df : List Row) : List DaysRow :=
  let clean := df.filter (fun r => r.date ≠ none)
  let grouped := groupbyAgg songKeyLe (fun r => (r.track_name, r.artist))
    (fun g => (distinctsFirst (g.map Row.date)).length) clean
  List.insertionSort (fun a b => b.days_on_chart ≤ a.days_on_chart)
    (grouped.map (fun kv => ⟨kv.1.1, kv.1.2, kv.2⟩))

/-- The full sorted totals table of `compute_top_songs_by_streams` before the
`head(n)` truncation: group by `(track_name, artist)`, sum `streams`, sort
descending by `total_streams`. -/
def streamTotalsSorted (df : List Row) : List StreamsRow :=
  List.insertionSort (fun a b => b.total_streams ≤ a.total_streams)
    ((groupbyAgg songKeyLe (fun r => (r.track_name, r.artist))
      (fun g => (g.map Row.streams).sum) df).map
      (fun kv => ⟨kv.1.1, kv.1.2, kv.2⟩))

/-- Embedding of `compute_top_songs_by_streams(df, n=20)`: the sorted totals truncated
with `head(n)`. -/
def compute_top_songs_by_streams (df : List Row) (n : Int := 20) :
    List StreamsRow :=
  dfHead (streamTotalsSorted df) n

/-! ### Column-name level: `_ensure_columns` and the rename steps -/

/-- The sorted list of required columns absent from `cols`:
`sorted(set(required_cols) - set(df.columns))` in `_ensure_columns`. -/
def missingColumns (cols required : List String) : List String :=
  List.insertionSort strLe
    (distinctsFirst (required.filter (fun c => c ∉ cols)))

/-- Embedding of `_ensure_columns`: raise `ValueError` (modelled as `Except.error`) with a
message joining all missing columns, or return unit when none are missing. -/
def ensure_columns (cols required : List String) : Except String Unit :=
  let missing := missingColumns cols required
  if missing.isEmpty then Except.ok ()
  else Except.error
    ("Missing required columns: " ++ String.intercalate ", " missing)

/-- Model of `df.rename(columns={old: new})` at the column-name level, applied only
when `old` is present (the guard in `load_spotify_charts`; `rename` itself is
a no-op on an absent key, so the guard is semantically redundant). -/
def renameColumn (cols : List String) (old new : String) : List String :=
  if old ∈ cols then
    cols.map (fun c => if c = old then new else c)
  else cols

/-- The `rename_map` of `load_spotify_charts`, in source order. -/
def analysisRenameMap : List (String × String) :=
  [("name", "track_name"), ("artists", "artist"),
   ("artist_genres", "artist_genres"), ("duration", "duration"),
   ("explicit", "explicit"), ("country", "country"), ("date", "date"),
   ("position", "position"), ("streams", "streams"),
   ("track_id", "track_id")]

/-- Step 4 of `load_spotify_charts`: fold the rename map over the column
list, renaming only the aliases that are present. -/
def normalizeColumns (cols : List String) : List String :=
  analysisRenameMap.foldl (fun cs p => renameColumn cs p.1 p.2) cols

/-- Alias step of `load_charts.Command.handle`: `region` → `country` only when no
`country` column exists. -/
def step_region (cols : List String) : List String :=
  if "country" ∉ cols ∧ "region" ∈ cols then
    renameColumn cols "region" "country"
  else cols

/-- Alias step of `load_charts.Command.handle`: `name` or `track` → `track_name` when no
`track_name` column exists. -/
def step_track_name (cols : List String) : List String :=
  if "track_name" ∈ cols then cols
  else if "name" ∈ cols then renameColumn cols "name" "track_name"
  else if "track" ∈ cols then renameColumn cols "track" "track_name"
  else cols

/-- Alias step of `load_charts.Command.handle`: `artists` or `artist_name` → `artist` when
no `artist` column exists. -/
def step_artist (cols : List String) : List String :=
  if "artist" ∈ cols then cols
  else if "artists" ∈ cols then renameColumn cols "artists" "artist"
  else if "artist_name" ∈ cols then
    renameColumn cols "artist_name" "artist"
  else cols

/-- Alias step of `load_charts.Command.handle`: `id` → `track_id` when no `track_id`
column exists. -/
def step_track_id (cols : List String) : List String :=
  if "track_id" ∉ cols ∧ "id" ∈ cols then
    renameColumn cols "id" "track_id"
  else cols

/-- Python `str.lower()`, modelled character-wise on the underlying list. -/
def lowerStr (s : String) : String :=
  String.mk (s.data.map Char.toLower)

/-- Python `str.strip()`: drop leading and trailing whitespace. -/
def stripStr (s : String) : String :=
  String.mk
    (((s.data.dropWhile Char.isWhitespace).reverse.dropWhile
      Char.isWhitespace).reverse)

/-- The import command's column normalization:
`df.columns = [c.strip().lower() for c in df.columns]`, then the four alias
steps in source order. -/
def commandNormalizeColumns (cols : List String) : List String :=
  step_track_id (step_artist (step_track_name (step_region
    (cols.map (fun c => lowerStr (stripStr c))))))

/-- The canonical schema of the glossary: the column names all aggregation
functions and the import command assume after alias normalization. -/
def canonicalColumns : List String :=
  ["track_name", "artist", "country", "date", "position", "streams",
   "track_id", "artist_genres", "duration", "explicit"]

/-! ### The import command's per-row coercion and skip policy -/

/-- The outcome of Python `int(...)` on one CSV cell: the cell is missing
(`na`, `pd.isna` is true), coerces to an integer, or is present but raises
`TypeError`/`ValueError` (`badVal`). -/
inductive Cell where
  | na : Cell
  | intVal : Int → Cell
  | badVal : Cell
deriving DecidableEq, Repr

/-- Model of `int(cell)` as an option: `some n` when the coercion succeeds. -/
def intCoerce : Cell → Option Int
  | Cell.intVal n => some n
  | _ => none

/-- One CSV row as the import loop sees it, after the frame-level
normalization: the date already went through
`pd.to_datetime(..., errors="coerce").dt.date` (`none` = `NaT`), the
country is `none` when `pd.isna` holds. -/
structure ImportRow where
  date : Option Nat
  country : Option String
  position : Cell
  streams : Cell
  duration : Cell
  explicitFlag : Bool
  track_id : String
  track_name : String
  artist : String
  artist_genres : String
deriving DecidableEq, Repr

/-- A `ChartEntry` as constructed by the import loop. -/
structure ChartEntry where
  date : Nat
  country : String
  position : Int
  streams : Int
  track_id : String
  track_name : String
  artist : String
  artist_genres : String
  duration : Option Int
  explicitFlag : Bool
deriving DecidableEq, Repr

/-- The body of the import loop for one row: skip (`none`) when the date,
country or position is missing or the position fails `int` coercion;
otherwise build the entry, with streams falling back to `0` when its
coercion fails and duration falling back to `None`. -/
def processRow (r : ImportRow) : Option ChartEntry :=
  match r.date, r.country with
  | some d, some c =>
    if r.position = Cell.na then none
    else
      match intCoerce r.position with
      | none => none
      | some p =>
        some { date := d, country := lowerStr c, position := p,
               streams := (intCoerce r.streams).getD 0,
               track_id := r.track_id, track_name := r.track_name,
               artist := r.artist, artist_genres := r.artist_genres,
               duration := intCoerce r.duration,
               explicitFlag := r.explicitFlag }
  | _, _ => none

/-- The whole import loop: the entries built from the rows that survive the
per-row checks, in order. -/
def importEntries (rows : List ImportRow) : List ChartEntry :=
  rows.filterMap processRow

/-! ### The loader's date coercion -/

/-- One raw record with its date still a string, as `pd.read_csv` delivers
it to `load_spotify_charts`. -/
structure RawRow where
  track_name : String
  artist : String
  country : String
  date : String
  streams : Int
deriving DecidableEq, Repr

/-- Step 5 of `load_spotify_charts`:
`df["date"] = pd.to_datetime(df["date"], errors="coerce")`, for an abstract
date parser `parse` (a value is unparsable when `parse` returns `none`).
The map is total: unparsable dates become the null marker, nothing raises. -/
def coerceDates (parse : String → Option Nat) (l : List RawRow) : List Row :=
  l.map (fun r =>
    { track_name := r.track_name, artist := r.artist, country := r.country,
      date := parse r.date, streams := r.streams })

/-! ### Generic lemmas about the building blocks -/

theorem mem_distinctsFirst {α : Type} [DecidableEq α] {a : α} :
    ∀ {l : List α}, a ∈ distinctsFirst l ↔ a ∈ l
  | [] => Iff.rfl
  | x :: xs => by
    by_cases hax : a = x
    · subst hax
      simp [distinctsFirst]
    · simp only [distinctsFirst, List.mem_cons, List.mem_filter,
        mem_distinctsFirst (l := xs)]
      simp [hax]

theorem distinctsFirst_nodup {α : Type} [DecidableEq α] :
    ∀ (l : List α), (distinctsFirst l).Nodup
  | [] => List.nodup_nil
  | x :: xs => by
    refine List.nodup_cons.mpr ⟨?_, (distinctsFirst_nodup xs).filter _⟩
    intro hx
    have := (List.mem_filter.mp hx).2
    simp at this

/-- Output of `insertionSort` is pairwise ordered, for any total transitive
comparison. -/
theorem pairwise_insertionSort {α : Type} (r : α → α → Prop) [DecidableRel r]
    (total : ∀ a b, r a b ∨ r b a) (htrans : ∀ a b c, r a b → r b c → r a c)
    (l : List α) : (List.insertionSort r l).Pairwise r := by
  haveI : IsTotal α r := ⟨total⟩
  haveI : IsTrans α r := ⟨htrans⟩
  exact List.sorted_insertionSort r l

theorem dfHead_sublist {α : Type} (l : List α) (n : Int) :
    (dfHead l n).Sublist l := by
  unfold dfHead
  split <;> exact List.take_sublist _ _

/-- The first components of a `groupbyAgg` result are exactly the distinct
key values, each appearing once. -/
theorem groupbyAgg_keys_nodup {α κ β : Type} [DecidableEq κ]
    (keyLe : κ → κ → Prop) [DecidableRel keyLe] (key : α → κ)
    (agg : List α → β) (l : List α) :
    ((groupbyAgg keyLe key agg l).map Prod.fst).Nodup := by
  unfold groupbyAgg
  rw [List.map_map]
  have hid : (Prod.fst ∘ fun k : κ =>
      (k, agg (l.filter (fun r => key r = k)))) = id := rfl
  rw [hid, List.map_id]
  exact (List.perm_insertionSort keyLe _).nodup_iff.mpr (distinctsFirst_nodup _)

theorem groupbyAgg_length {α κ β : Type} [DecidableEq κ]
    (keyLe : κ → κ → Prop) [DecidableRel keyLe] (key : α → κ)
    (agg : List α → β) (l : List α) :
    (groupbyAgg keyLe key agg l).length
      = (distinctsFirst (l.map key)).length := by
  unfold groupbyAgg
  rw [List.length_map, (List.perm_insertionSort keyLe _).length_eq]

/-- Mapping a row constructor that retains the key over a `groupbyAgg`
result yields pairwise-distinct keys. -/
theorem groupbyAgg_map_pairwise_ne {α κ β γ : Type} [DecidableEq κ]
    (keyLe : κ → κ → Prop) [DecidableRel keyLe] (key : α → κ)
    (agg : List α → β) (l : List α) (mk : κ × β → γ) (keyOf : γ → κ)
    (hmk : ∀ kv, keyOf (mk kv) = kv.1) :
    ((groupbyAgg keyLe key agg l).map mk).Pairwise
      (fun a b => keyOf a ≠ keyOf b) := by
  have h := groupbyAgg_keys_nodup keyLe key agg l
  have h2 : (groupbyAgg keyLe key agg l).Pairwise
      (fun a b : κ × β => a.1 ≠ b.1) := by
    have := (List.pairwise_map (l := groupbyAgg keyLe key agg l)
      (f := Prod.fst) (R := fun a b : κ => a ≠ b)).mp h
    exact this
  refine (List.pairwise_map).mpr (h2.imp ?_)
  intro a b hne
  rw [hmk, hmk]
  exact hne

/-! ### Claim theorems -/

/-- C1: for every input table containing the columns each aggregator
requires, the output of each of the four aggregation functions is sorted in
non-increasing order of its reduced column (`country_count`,
`unique_tracks`, `days_on_chart`, `total_streams` respectively).  In the
embedding a `List Row` always carries the required columns, so the property
is stated for all tables and all requested counts `n`. -/
theorem aggregations_sorted_nonincreasing (df : List Row) (n : Int) :
    (compute_country_song_counts df).Pairwise
      (fun a b => b.country_count ≤ a.country_count) ∧
    (compute_chart_diversity_by_country df).Pairwise
      (fun a b => b.unique_tracks ≤ a.unique_tracks) ∧
    (compute_average_days_on_chart df).Pairwise
      (fun a b => b.days_on_chart ≤ a.days_on_chart) ∧
    (compute_top_songs_by_streams df n).Pairwise
      (fun a b => b.total_streams ≤ a.total_streams) := by
  refine ⟨?_, ?_, ?_, ?_⟩
  · simp only [compute_country_song_counts]
    exact pairwise_insertionSort
      (fun a b : CountryCountRow => b.country_count ≤ a.country_count)
      (fun a b => Nat.le_total b.country_count a.country_count)
      (fun a b c hab hbc => le_trans hbc hab) _
  · simp only [compute_chart_diversity_by_country]
    exact pairwise_insertionSort
      (fun a b : DiversityRow => b.unique_tracks ≤ a.unique_tracks)
      (fun a b => Nat.le_total b.unique_tracks a.unique_tracks)
      (fun a b c hab hbc => le_trans hbc hab) _
  · simp only [compute_average_days_on_chart]
    exact pairwise_insertionSort
      (fun a b : DaysRow => b.days_on_chart ≤ a.days_on_chart)
      (fun a b => Nat.le_total b.days_on_chart a.days_on_chart)
      (fun a b c hab hbc => le_trans hbc hab) _
  · simp only [compute_top_songs_by_streams]
    refine List.Pairwise.sublist (dfHead_sublist _ _) ?_
    simp only [streamTotalsSorted]
    exact pairwise_insertionSort
      (fun a b : StreamsRow => b.total_streams ≤ a.total_streams)
      (fun a b => Int.le_total b.total_streams a.total_streams)
      (fun a b c hab hbc => le_trans hbc hab) _

/-- C9: for every input table with the required columns, the outputs of
`compute_country_song_counts`, `compute_chart_diversity_by_country` and
`compute_average_days_on_chart` contain no two rows with the same group key
(`(track_name, artist)`, `country`, and `(track_name, artist)`
respectively). -/
theorem aggregations_group_keys_distinct (df : List Row) :
    (compute_country_song_counts df).Pairwise
      (fun a b => (a.track_name, a.artist) ≠ (b.track_name, b.artist)) ∧
    (compute_chart_diversity_by_country df).Pairwise
      (fun a b => a.country ≠ b.country) ∧
    (compute_average_days_on_chart df).Pairwise
      (fun a b => (a.track_name, a.artist) ≠ (b.track_name, b.artist)) := by
  refine ⟨?_, ?_, ?_⟩
  · simp only [compute_country_song_counts]
    refine ((List.perm_insertionSort _ _).pairwise_iff ?_).mpr
      (groupbyAgg_map_pairwise_ne _ _ _ _ _
        (fun r : CountryCountRow => (r.track_name, r.artist)) (fun kv => rfl))
    intro a b h hc
    exact h hc.symm
  · simp only [compute_chart_diversity_by_country]
    refine ((List.perm_insertionSort _ _).pairwise_iff ?_).mpr
      (groupbyAgg_map_pairwise_ne _ _ _ _ _
        (fun r : DiversityRow => r.country) (fun kv => rfl))
    intro a b h hc
    exact h hc.symm
  · simp only [compute_average_days_on_chart]
    refine ((List.perm_insertionSort _ _).pairwise_iff ?_).mpr
      (groupbyAgg_map_pairwise_ne _ _ _ _ _
        (fun r : DaysRow => (r.track_name, r.artist)) (fun kv => rfl))
    intro a b h hc
    exact h hc.symm

theorem streamTotalsSorted_length (df : List Row) :
    (streamTotalsSorted df).length
      = (distinctsFirst (df.map (fun r => (r.track_name, r.artist)))).length := by
  simp only [streamTotalsSorted]
  rw [(List.perm_insertionSort _ _).length_eq, List.length_map,
    groupbyAgg_length]

/-- C2: for every input table and every `n > 0`,
`compute_top_songs_by_streams` truncates only after sorting (its output is
the `n`-prefix of the fully sorted totals), never returns more than `n`
rows, and returns exactly `min(n, number of distinct (track_name, artist)
groups)` rows. -/
theorem top_songs_truncation (df : List Row) (n : Int) (hn : 0 < n) :
    compute_top_songs_by_streams df n
      = (streamTotalsSorted df).take n.toNat ∧
    (compute_top_songs_by_streams df n).length ≤ n.toNat ∧
    (compute_top_songs_by_streams df n).length
      = min n.toNat
          (distinctsFirst
            (df.map (fun r => (r.track_name, r.artist)))).length := by
  have hto : compute_top_songs_by_streams df n
      = (streamTotalsSorted df).take n.toNat := by
    simp only [compute_top_songs_by_streams, dfHead]
    rw [if_pos (le_of_lt hn)]
  refine ⟨hto, ?_, ?_⟩
  · rw [hto, List.length_take]
    exact min_le_left _ _
  · rw [hto, List.length_take, streamTotalsSorted_length]

/-- C10: `compute_top_songs_by_streams` with `n = 0` returns an empty
result, and with `n < 0` returns all but the last `|n|` rows of the sorted
totals, i.e. `max(distinct_group_count + n, 0)` rows — pandas'
`head` semantics. -/
theorem top_songs_nonpositive_n (df : List Row) (n : Int) (hn : n < 0) :
    compute_top_songs_by_streams df 0 = [] ∧
    compute_top_songs_by_streams df n
      = (streamTotalsSorted df).take
          ((streamTotalsSorted df).length - (-n).toNat) ∧
    ((compute_top_songs_by_streams df n).length : Int)
      = max (((distinctsFirst
          (df.map (fun r => (r.track_name, r.artist)))).length : Int) + n)
          0 := by
  refine ⟨?_, ?_, ?_⟩
  · simp [compute_top_songs_by_streams, dfHead]
  · simp only [compute_top_songs_by_streams, dfHead]
    rw [if_neg (by omega)]
  · simp only [compute_top_songs_by_streams, dfHead]
    rw [if_neg (by omega), List.length_take, streamTotalsSorted_length]
    omega

/-- The two-row table of the spec's round-trip property: same song `("A",
"X")` in two countries with 100 and 50 streams.  The spec does not
constrain the `date` column, so an arbitrary parsed date is used. -/
def roundTripTable : List Row :=
  [{ track_name := "A", artist := "X", country := "US", date := some 0,
     streams := 100 },
   { track_name := "A", artist := "X", country := "UK", date := some 0,
     streams := 50 }]

/-- C3: on the concrete two-row table, `compute_top_songs_by_streams`
(with the source's default `n = 20`) yields `total_streams = 150` for the
group `("A", "X")`, and `compute_country_song_counts` yields
`country_count = 2` for it. -/
theorem round_trip_example :
    compute_top_songs_by_streams roundTripTable 20
      = [{ track_name := "A", artist := "X", total_streams := 150 }] ∧
    compute_country_song_counts roundTripTable
      = [{ track_name := "A", artist := "X", country_count := 2 }] := by
  constructor <;> decide

/-- A table with two distinct `(track_name, artist)` groups, used to
instantiate the truncation theorems. -/
def twoGroupTable : List Row :=
  [{ track_name := "A", artist := "X", country := "US", date := some 0,
     streams := 100 },
   { track_name := "B", artist := "Y", country := "US", date := some 0,
     streams := 70 }]

theorem top_songs_truncation_witness :
    (0 : Int) < 1 ∧
    (compute_top_songs_by_streams twoGroupTable 1
        = (streamTotalsSorted twoGroupTable).take (1 : Int).toNat ∧
      (compute_top_songs_by_streams twoGroupTable 1).length ≤ (1 : Int).toNat ∧
      (compute_top_songs_by_streams twoGroupTable 1).length
        = min (1 : Int).toNat
            (distinctsFirst
              (twoGroupTable.map
                (fun r => (r.track_name, r.artist)))).length) :=
  ⟨by decide, top_songs_truncation twoGroupTable 1 (by decide)⟩

theorem top_songs_nonpositive_n_witness :
    (-1 : Int) < 0 ∧
    (compute_top_songs_by_streams twoGroupTable 0 = [] ∧
      compute_top_songs_by_streams twoGroupTable (-1)
        = (streamTotalsSorted twoGroupTable).take
            ((streamTotalsSorted twoGroupTable).length - (-(-1) : Int).toNat) ∧
      ((compute_top_songs_by_streams twoGroupTable (-1)).length : Int)
        = max (((distinctsFirst
            (twoGroupTable.map
              (fun r => (r.track_name, r.artist)))).length : Int) + (-1))
            0) :=
  ⟨by decide, top_songs_nonpositive_n twoGroupTable (-1) (by decide)⟩

/-- C7: an unparsable date string is coerced by the loader to the null
marker (`none`) rather than raising — `coerceDates` is total — and
`compute_average_days_on_chart` excludes that row from the distinct-day
count: inserting such a row anywhere leaves the output unchanged. -/
theorem unparsable_date_dropped (parse : String → Option Nat)
    (l₁ l₂ : List RawRow) (r : RawRow) (h : parse r.date = none) :
    coerceDates parse (l₁ ++ r :: l₂)
      = coerceDates parse l₁
        ++ ({ track_name := r.track_name, artist := r.artist,
              country := r.country, date := none,
              streams := r.streams } : Row) :: coerceDates parse l₂ ∧
    compute_average_days_on_chart (coerceDates parse (l₁ ++ r :: l₂))
      = compute_average_days_on_chart (coerceDates parse (l₁ ++ l₂)) := by
  constructor
  · simp [coerceDates, h]
  · have key : (coerceDates parse (l₁ ++ r :: l₂)).filter
        (fun x => x.date ≠ none)
        = (coerceDates parse (l₁ ++ l₂)).filter (fun x => x.date ≠ none) := by
      simp [coerceDates, List.filter_append, h]
    simp only [compute_average_days_on_chart]
    rw [key]

theorem unparsable_date_dropped_witness :
    ((fun _ : String => (none : Option Nat)) "bad-date" = none) ∧
    (coerceDates (fun _ => none)
        ([] ++ ({ track_name := "A", artist := "X", country := "US",
                  date := "bad-date", streams := 5 } : RawRow)
          :: [{ track_name := "A", artist := "X", country := "US",
                date := "2023-01-01", streams := 5 }])
      = coerceDates (fun _ => none) []
        ++ ({ track_name := "A", artist := "X", country := "US",
              date := none, streams := 5 } : Row)
        :: coerceDates (fun _ => none)
            [{ track_name := "A", artist := "X", country := "US",
               date := "2023-01-01", streams := 5 }] ∧
    compute_average_days_on_chart (coerceDates (fun _ => none)
        ([] ++ ({ track_name := "A", artist := "X", country := "US",
                  date := "bad-date", streams := 5 } : RawRow)
          :: [{ track_name := "A", artist := "X", country := "US",
                date := "2023-01-01", streams := 5 }]))
      = compute_average_days_on_chart (coerceDates (fun _ => none)
          ([] ++ [{ track_name := "A", artist := "X", country := "US",
                    date := "2023-01-01", streams := 5 }]))) :=
  ⟨rfl, unparsable_date_dropped (fun _ => none) []
    [{ track_name := "A", artist := "X", country := "US",
       date := "2023-01-01", streams := 5 }]
    { track_name := "A", artist := "X", country := "US",
      date := "bad-date", streams := 5 } rfl⟩

theorem mem_missingColumns {c : String} {cols required : List String} :
    c ∈ missingColumns cols required ↔ c ∈ required ∧ c ∉ cols := by
  simp only [missingColumns]
  rw [(List.perm_insertionSort strLe _).mem_iff, mem_distinctsFirst,
    List.mem_filter]
  simp

/-- C4: for every table and every set of required column names,
`_ensure_columns` succeeds exactly when no required column is absent; every
missing required column appears in the missing list; and when any column is
missing it raises a `ValueError` whose message joins the whole sorted
missing list (so it names every missing column, not just the first). -/
theorem ensure_columns_reports_all_missing (cols required : List String) :
    (ensure_columns cols required = Except.ok () ↔
      ∀ c ∈ required, c ∈ cols) ∧
    (∀ c ∈ required, c ∉ cols → c ∈ missingColumns cols required) ∧
    ((∃ c, c ∈ required ∧ c ∉ cols) →
      ensure_columns cols required
        = Except.error ("Missing required columns: "
            ++ String.intercalate ", " (missingColumns cols required))) := by
  have hempty : missingColumns cols required = [] ↔
      ∀ c ∈ required, c ∈ cols := by
    rw [List.eq_nil_iff_forall_not_mem]
    constructor
    · intro h c hc
      by_contra hcc
      exact h c (mem_missingColumns.mpr ⟨hc, hcc⟩)
    · intro h c hm
      rcases mem_missingColumns.mp hm with ⟨hreq, hcc⟩
      exact hcc (h c hreq)
  refine ⟨?_, ?_, ?_⟩
  · simp only [ensure_columns]
    by_cases hi : (missingColumns cols required).isEmpty
    · rw [if_pos hi]
      exact iff_of_true rfl (hempty.mp (List.isEmpty_iff.mp hi))
    · rw [if_neg hi]
      refine iff_of_false (by simp) ?_
      intro hall
      exact hi (List.isEmpty_iff.mpr (hempty.mpr hall))
  · exact fun c hc hcc => mem_missingColumns.mpr ⟨hc, hcc⟩
  · rintro ⟨c, hc, hcc⟩
    simp only [ensure_columns]
    rw [if_neg]
    intro hi
    have := List.isEmpty_iff.mp hi
    have hmem := mem_missingColumns.mpr ⟨hc, hcc⟩
    rw [this] at hmem
    exact List.not_mem_nil c hmem

theorem ensure_columns_witness :
    (∃ c, c ∈ ["track_name", "artist", "country"] ∧
      c ∉ (["track_name"] : List String)) ∧
    ensure_columns ["track_name"] ["track_name", "artist", "country"]
      = Except.error ("Missing required columns: "
          ++ String.intercalate ", "
            (missingColumns ["track_name"]
              ["track_name", "artist", "country"])) :=
  ⟨⟨"artist", by decide, by decide⟩,
    (ensure_columns_reports_all_missing ["track_name"]
      ["track_name", "artist", "country"]).2.2
      ⟨"artist", by decide, by decide⟩⟩

/-! ### Lemmas about column renaming -/

theorem renameColumn_self (cols : List String) (x : String) :
    renameColumn cols x x = cols := by
  unfold renameColumn
  split
  · have hid : (fun c : String => if c = x then x else c) = id := by
      funext c
      by_cases h : c = x <;> simp [h]
    rw [hid, List.map_id]
  · rfl

theorem renameColumn_of_not_mem {cols : List String} {old : String}
    (new : String) (h : old ∉ cols) : renameColumn cols old new = cols := by
  unfold renameColumn
  rw [if_neg h]

theorem mem_renameColumn_of_ne {cols : List String} {x old : String}
    (new : String) (hx : x ∈ cols) (hne : x ≠ old) :
    x ∈ renameColumn cols old new := by
  unfold renameColumn
  split
  · exact List.mem_map.mpr ⟨x, hx, by simp [hne]⟩
  · exact hx

theorem not_mem_renameColumn {cols : List String} {x new : String}
    (old : String) (hx : x ∉ cols) (hnew : x ≠ new) :
    x ∉ renameColumn cols old new := by
  unfold renameColumn
  split
  · intro hmem
    rcases List.mem_map.mp hmem with ⟨c, hc, hval⟩
    by_cases h : c = old
    · rw [if_pos h] at hval
      exact hnew hval.symm
    · rw [if_neg h] at hval
      exact hx (hval ▸ hc)
  · exact hx

theorem old_not_mem_renameColumn {cols : List String} {old new : String}
    (hne : old ≠ new) : old ∉ renameColumn cols old new := by
  unfold renameColumn
  split
  · intro hmem
    rcases List.mem_map.mp hmem with ⟨c, hc, hval⟩
    by_cases h : c = old
    · rw [if_pos h] at hval
      exact hne hval.symm
    · rw [if_neg h] at hval
      exact h hval
  · intro hmem
    exact (by assumption : ¬ old ∈ cols) hmem

theorem new_mem_renameColumn {cols : List String} {old new : String}
    (h : old ∈ cols) : new ∈ renameColumn cols old new := by
  unfold renameColumn
  rw [if_pos h]
  exact List.mem_map.mpr ⟨old, h, by simp⟩

theorem mem_foldl_rename {x : String} :
    ∀ (entries : List (String × String)) (cols : List String),
      x ∈ cols → (∀ e ∈ entries, x ≠ e.1) →
      x ∈ entries.foldl (fun cs p => renameColumn cs p.1 p.2) cols
  | [], _, hx, _ => hx
  | e :: es, cols, hx, hne => by
    rw [List.foldl_cons]
    exact mem_foldl_rename es _
      (mem_renameColumn_of_ne _ hx (hne e (List.mem_cons_self e es)))
      (fun e' he' => hne e' (List.mem_cons_of_mem _ he'))

theorem not_mem_foldl_rename {x : String} :
    ∀ (entries : List (String × String)) (cols : List String),
      x ∉ cols → (∀ e ∈ entries, x ≠ e.2 ∨ e.1 = x) →
      x ∉ entries.foldl (fun cs p => renameColumn cs p.1 p.2) cols
  | [], _, hx, _ => hx
  | e :: es, cols, hx, hne => by
    rw [List.foldl_cons]
    refine not_mem_foldl_rename es _ ?_
      (fun e' he' => hne e' (List.mem_cons_of_mem _ he'))
    rcases hne e (List.mem_cons_self e es) with h | h
    · exact not_mem_renameColumn _ hx h
    · rw [h]
      unfold renameColumn
      rw [if_neg hx]
      exact hx

theorem mem_step_track_name {x : String} {cols : List String}
    (hx : x ∈ cols) (h1 : x ≠ "name") (h2 : x ≠ "track") :
    x ∈ step_track_name cols := by
  unfold step_track_name
  split_ifs
  · exact hx
  · exact mem_renameColumn_of_ne _ hx h1
  · exact mem_renameColumn_of_ne _ hx h2
  · exact hx

theorem not_mem_step_track_name {x : String} {cols : List String}
    (hx : x ∉ cols) (h1 : x ≠ "track_name") :
    x ∉ step_track_name cols := by
  unfold step_track_name
  split_ifs
  · exact hx
  · exact not_mem_renameColumn _ hx h1
  · exact not_mem_renameColumn _ hx h1
  · exact hx

theorem mem_step_artist {x : String} {cols : List String}
    (hx : x ∈ cols) (h1 : x ≠ "artists") (h2 : x ≠ "artist_name") :
    x ∈ step_artist cols := by
  unfold step_artist
  split_ifs
  · exact hx
  · exact mem_renameColumn_of_ne _ hx h1
  · exact mem_renameColumn_of_ne _ hx h2
  · exact hx

theorem not_mem_step_artist {x : String} {cols : List String}
    (hx : x ∉ cols) (h1 : x ≠ "artist") : x ∉ step_artist cols := by
  unfold step_artist
  split_ifs
  · exact hx
  · exact not_mem_renameColumn _ hx h1
  · exact not_mem_renameColumn _ hx h1
  · exact hx

theorem mem_step_track_id {x : String} {cols : List String}
    (hx : x ∈ cols) (h1 : x ≠ "id") : x ∈ step_track_id cols := by
  unfold step_track_id
  split_ifs
  · exact mem_renameColumn_of_ne _ hx h1
  · exact hx

theorem not_mem_step_track_id {x : String} {cols : List String}
    (hx : x ∉ cols) (h1 : x ≠ "track_id") : x ∉ step_track_id cols := by
  unfold step_track_id
  split_ifs
  · exact not_mem_renameColumn _ hx h1
  · exact hx

/-- C8: column-alias normalization is idempotent — applying either rename
step (the analysis loader's fold or the import command's normalization) to
a table whose columns already use canonical names changes nothing. -/
theorem rename_idempotent_on_canonical (cols : List String)
    (h : ∀ c ∈ cols, c ∈ canonicalColumns) :
    normalizeColumns cols = cols ∧ commandNormalizeColumns cols = cols := by
  have hname : "name" ∉ cols := fun hm => absurd (h _ hm) (by decide)
  have hartists : "artists" ∉ cols := fun hm => absurd (h _ hm) (by decide)
  have hregion : "region" ∉ cols := fun hm => absurd (h _ hm) (by decide)
  constructor
  · simp only [normalizeColumns, analysisRenameMap, List.foldl_cons,
      List.foldl_nil]
    rw [renameColumn_of_not_mem _ hname, renameColumn_of_not_mem _ hartists,
      renameColumn_self, renameColumn_self, renameColumn_self,
      renameColumn_self, renameColumn_self, renameColumn_self,
      renameColumn_self, renameColumn_self]
  · have hmap : cols.map (fun c => lowerStr (stripStr c)) = cols := by
      have hfix : ∀ c ∈ canonicalColumns, lowerStr (stripStr c) = c := by
        decide
      have := List.map_congr_left
        (f := fun c => lowerStr (stripStr c)) (g := id)
        (fun c hc => hfix c (h c hc))
      rw [this, List.map_id]
    have h1 : step_region cols = cols := by
      unfold step_region
      rw [if_neg (fun hc => hregion hc.2)]
    have h2 : step_track_name cols = cols := by
      have ht : "track" ∉ cols := fun hm => absurd (h _ hm) (by decide)
      unfold step_track_name
      by_cases htn : "track_name" ∈ cols
      · rw [if_pos htn]
      · rw [if_neg htn, if_neg hname, if_neg ht]
    have h3 : step_artist cols = cols := by
      have han : "artist_name" ∉ cols := fun hm => absurd (h _ hm) (by decide)
      unfold step_artist
      by_cases hart : "artist" ∈ cols
      · rw [if_pos hart]
      · rw [if_neg hart, if_neg hartists, if_neg han]
    have h4 : step_track_id cols = cols := by
      unfold step_track_id
      rw [if_neg (fun hc => absurd (h _ hc.2) (by decide))]
    simp only [commandNormalizeColumns]
    rw [hmap, h1, h2, h3, h4]

theorem rename_idempotent_witness :
    (∀ c ∈ (["track_name", "artist", "country", "date", "position",
        "streams"] : List String), c ∈ canonicalColumns) ∧
    (normalizeColumns
        ["track_name", "artist", "country", "date", "position", "streams"]
        = ["track_name", "artist", "country", "date", "position",
           "streams"] ∧
      commandNormalizeColumns
        ["track_name", "artist", "country", "date", "position", "streams"]
        = ["track_name", "artist", "country", "date", "position",
           "streams"]) :=
  ⟨by decide, rename_idempotent_on_canonical _ (by decide)⟩

/-- The column list of a chart file that uses `region` for the country,
with no `country` column. -/
def regionCols : List String :=
  ["region", "name", "artists", "date", "position", "streams"]

/-- C5 counterexample: `load_spotify_charts` has no `region` entry in its
rename map, so on a table with a `region` column (and no `country` column)
its normalized output still has `region` and no `country` column — the
claimed `region` → `country` rename does not happen in the loader. -/
theorem loader_keeps_region_column :
    "region" ∈ normalizeColumns regionCols ∧
    "country" ∉ normalizeColumns regionCols := by decide

/-- C5 amended: the analysis loader's rename map covers `name` →
`track_name` and `artists` → `artist` but not `region`, so it leaves a
`region` column unchanged and produces no `country` column; the `region` →
`country` alias exists only in the import command's normalization, which
does replace `region` with `country`. -/
theorem region_alias_only_in_import_command (cols cols2 : List String)
    (h1 : "region" ∈ cols) (h2 : "country" ∉ cols)
    (h3 : "region" ∈ cols2.map (fun c => lowerStr (stripStr c)))
    (h4 : "country" ∉ cols2.map (fun c => lowerStr (stripStr c))) :
    ("region" ∈ normalizeColumns cols ∧
      "country" ∉ normalizeColumns cols) ∧
    ("country" ∈ commandNormalizeColumns cols2 ∧
      "region" ∉ commandNormalizeColumns cols2) := by
  constructor
  · constructor
    · exact mem_foldl_rename analysisRenameMap cols h1 (by decide)
    · exact not_mem_foldl_rename analysisRenameMap cols h2 (by decide)
  · have hc1 : "country" ∈ step_region
        (cols2.map (fun c => lowerStr (stripStr c))) := by
      unfold step_region
      rw [if_pos ⟨h4, h3⟩]
      exact new_mem_renameColumn h3
    have hr1 : "region" ∉ step_region
        (cols2.map (fun c => lowerStr (stripStr c))) := by
      unfold step_region
      rw [if_pos ⟨h4, h3⟩]
      exact old_not_mem_renameColumn (by decide)
    constructor
    · exact mem_step_track_id
        (mem_step_artist
          (mem_step_track_name hc1 (by decide) (by decide))
          (by decide) (by decide))
        (by decide)
    · exact not_mem_step_track_id
        (not_mem_step_artist
          (not_mem_step_track_name hr1 (by decide))
          (by decide))
        (by decide)

theorem region_alias_witness :
    ("region" ∈ (["region", "date"] : List String)) ∧
    ("country" ∉ (["region", "date"] : List String)) ∧
    ("region" ∈ (["Region ", "date"] : List String).map
      (fun c => lowerStr (stripStr c))) ∧
    ("country" ∉ (["Region ", "date"] : List String).map
      (fun c => lowerStr (stripStr c))) ∧
    (("region" ∈ normalizeColumns ["region", "date"] ∧
        "country" ∉ normalizeColumns ["region", "date"]) ∧
      ("country" ∈ commandNormalizeColumns ["Region ", "date"] ∧
        "region" ∉ commandNormalizeColumns ["Region ", "date"])) :=
  ⟨by decide, by decide, by decide, by decide,
    region_alias_only_in_import_command ["region", "date"]
      ["Region ", "date"] (by decide) (by decide) (by decide) (by decide)⟩

/-- An import row whose `streams` cell fails `int` coercion while every
other required cell is valid. -/
def badStreamsRow : ImportRow :=
  { date := some 1, country := some "US", position := Cell.intVal 3,
    streams := Cell.badVal, duration := Cell.na, explicitFlag := false,
    track_id := "t1", track_name := "A", artist := "X",
    artist_genres := "" }

/-- The entry the import loop builds from `badStreamsRow`. -/
def badStreamsEntry : ChartEntry :=
  { date := 1, country := "us", position := 3, streams := 0,
    track_id := "t1", track_name := "A", artist := "X",
    artist_genres := "", duration := none, explicitFlag := false }

/-- C6 counterexample: a row whose `streams` value fails type coercion is
not skipped — the import inserts it with `streams = 0` (and nothing is
logged: the skip branches are bare `continue`s). -/
theorem bad_streams_row_not_skipped :
    intCoerce badStreamsRow.streams = none ∧
    importEntries [badStreamsRow] = [badStreamsEntry] ∧
    badStreamsEntry.streams = 0 := by decide

/-- C6 amended: the import loop silently skips exactly the rows whose date
is missing/unparsable, whose country is missing, or whose position is
missing or fails `int` coercion; skipping never aborts the rest of the
import; and a row whose `streams` value fails coercion is kept with
`streams = 0` rather than skipped. -/
theorem import_skip_policy (r : ImportRow) (l₁ l₂ : List ImportRow) :
    (processRow r = none ↔
      r.date = none ∨ r.country = none ∨ intCoerce r.position = none) ∧
    (processRow r = none →
      importEntries (l₁ ++ r :: l₂)
        = importEntries l₁ ++ importEntries l₂) ∧
    (∀ d c p, r.date = some d → r.country = some c →
      intCoerce r.position = some p →
      processRow r = some
        { date := d, country := lowerStr c, position := p,
          streams := (intCoerce r.streams).getD 0,
          track_id := r.track_id, track_name := r.track_name,
          artist := r.artist, artist_genres := r.artist_genres,
          duration := intCoerce r.duration,
          explicitFlag := r.explicitFlag }) := by
  refine ⟨?_, ?_, ?_⟩
  · rcases hd : r.date with _ | d
    · simp [processRow, hd]
    · rcases hc : r.country with _ | c
      · simp [processRow, hd, hc]
      · rcases hp : r.position with _ | p | _ <;>
          simp [processRow, hd, hc, hp, intCoerce]
  · intro h
    simp [importEntries, h]
  · intro d c p hd hc hp
    rcases hpos : r.position with _ | q | _ <;> rw [hpos] at hp <;>
      simp only [intCoerce] at hp
    · exact absurd hp (by simp)
    · rcases Option.some_inj.mp hp with rfl
      simp [processRow, hd, hc, hpos, intCoerce]
    · exact absurd hp (by simp)

theorem import_skip_policy_witness :
    (badStreamsRow.date = some 1 ∧ badStreamsRow.country = some "US" ∧
      intCoerce badStreamsRow.position = some 3) ∧
    processRow badStreamsRow = some
      { date := 1, country := lowerStr "US", position := 3,
        streams := (intCoerce badStreamsRow.streams).getD 0,
        track_id := badStreamsRow.track_id,
        track_name := badStreamsRow.track_name,
        artist := badStreamsRow.artist,
        artist_genres := badStreamsRow.artist_genres,
        duration := intCoerce badStreamsRow.duration,
        explicitFlag := badStreamsRow.explicitFlag } :=
  ⟨⟨rfl, rfl, rfl⟩,
    (import_skip_policy badStreamsRow [] []).2.2 1 "US" 3 rfl rfl rfl⟩

end Spotify
